import Mathlib

/-!
Verification development for the doc-mindmap batch document pipeline
(`src/doc-mindmap/scripts/doc_converter.py`).

The Python program is shallowly embedded as pure Lean functions:

* filesystem writes become explicit association-list stores threaded through
  the stage functions (`storeWrite` models `open(path, "w")`, which overwrites);
* the external collaborators (markitdown conversion, the Ollama HTTP calls,
  `json.loads`) become oracle parameters returning `Except`/`Option`;
* Python strings are modelled by `String`, with the handful of library
  operations the program uses (`str.split`, `str.strip`, `str.replace`,
  `pathlib` name/stem/suffix, lexicographic sorting of `sorted(...)`)
  re-implemented over `List Char` so that every definition evaluates inside
  the kernel;
* `datetime.now()` is passed in as an explicit `now : String` argument;
* per-file progress printing and the CSV index (written, never read) are not
  modelled; they do not affect any of the verified behaviour.
-/

namespace DocConv

/-! ### Python string primitives -/

/-- The backquote character (written numerically; it delimits fenced code
blocks in generator responses). -/
def bq : Char := Char.ofNat 96

/-- Worker for `splitOnSep`: scans `s` one character at a time, cutting
whenever `sep` is a prefix of the remaining input and then skipping the rest
of the matched separator via the `skip` counter (so the recursion stays
structural). This mirrors CPython `str.split(sep)`: leftmost,
non-overlapping matches. -/
def goSplit (sep : List Char) : Nat → List Char → List Char → List (List Char)
  | _, [], acc => [acc.reverse]
  | skip + 1, _ :: cs, acc => goSplit sep skip cs acc
  | 0, c :: cs, acc =>
    if sep.isPrefixOf (c :: cs) then
      acc.reverse :: goSplit sep (sep.length - 1) cs []
    else
      goSplit sep 0 cs (c :: acc)

/-- Model of Python `s.split(sep)` for a non-empty separator. -/
def splitOnSep (sep s : List Char) : List (List Char) :=
  goSplit sep 0 s []

/-- Model of Python `needle in hay` (substring containment). -/
def containsSubstr (needle hay : String) : Bool :=
  needle.length = 0 || (splitOnSep needle.toList hay.toList).length > 1

/-- Model of Python `s.replace(pat, repl)` (all non-overlapping occurrences,
left to right), via split-and-rejoin. -/
def pyReplace (s pat repl : String) : String :=
  ⟨List.intercalate repl.toList (splitOnSep pat.toList s.toList)⟩

/-- The whitespace characters stripped by Python `str.strip()` (ASCII part;
the program only strips markdown/JSON text). -/
def isSpaceChar (c : Char) : Bool :=
  c == ' ' || c == '\t' || c == '\n' || c == '\r' || c == '\x0b' || c == '\x0c'

/-- Model of Python `s.strip()`. -/
def pyStrip (s : String) : String :=
  ⟨((s.toList.dropWhile isSpaceChar).reverse.dropWhile isSpaceChar).reverse⟩

/-- Model of Python `s.lower()` (the program lowercases file extensions). -/
def pyLower (s : String) : String :=
  ⟨s.toList.map Char.toLower⟩

/-- Model of `pathlib.Path(p).name`: the final path component. -/
def basename (p : String) : String :=
  ⟨(splitOnSep ['/'] p.toList).getLastD p.toList⟩

/-- Index of the last `'.'` in a character list (`str.rfind('.')`). -/
def lastDotIdxAux : List Char → Nat → Option Nat → Option Nat
  | [], _, best => best
  | c :: cs, i, best => lastDotIdxAux cs (i + 1) (if c = '.' then some i else best)

/-- Index of the last `'.'` in a string, if any. -/
def lastDotIdx (n : String) : Option Nat :=
  lastDotIdxAux n.toList 0 none

/-- Start index of `pathlib`'s suffix of a file *name*: the last dot counts
only when it is neither the first nor the last character (`0 < i < len-1`). -/
def pySuffixStart (n : String) : Option Nat :=
  match lastDotIdx n with
  | some i => if 0 < i ∧ i + 1 < n.length then some i else none
  | none => none

/-- Model of `pathlib.Path(name).stem` applied to a file name. -/
def pyStemName (n : String) : String :=
  match pySuffixStart n with
  | some i => ⟨n.toList.take i⟩
  | none => n

/-- Model of `pathlib.Path(p).stem` (stem of the final component). -/
def pyStem (p : String) : String :=
  pyStemName (basename p)

/-- Model of `pathlib.Path(p).suffix` (suffix of the final component). -/
def pySuffix (p : String) : String :=
  match pySuffixStart (basename p) with
  | some i => ⟨(basename p).toList.drop i⟩
  | none => ""

/-- Model of `name.rsplit(".", 1)` followed by
`f".{parts[-1]}" if len(parts) > 1 else ""` in `DocConverter.summarize`. -/
def rsplitExt (name : String) : String :=
  match lastDotIdx name with
  | some i => "." ++ ⟨name.toList.drop (i + 1)⟩
  | none => ""

/-- Lexicographic (code-point) comparison of character lists; Python compares
strings this way, so `sorted(...)` of file names is insertion by this order. -/
def charListLt : List Char → List Char → Bool
  | [], [] => false
  | [], _ :: _ => true
  | _ :: _, [] => false
  | a :: as, b :: bs => if a < b then true else if b < a then false else charListLt as bs

/-- `a < b` on strings, by code points (Python string comparison). -/
def strLtB (a b : String) : Bool :=
  charListLt a.toList b.toList

/-- Model of Python `s.endswith(t)` / the `*.brief.md` glob filter. -/
def strEndsWith (s suffix : String) : Bool :=
  List.isSuffixOf suffix.toList s.toList

/-! ### Stores (directories of written files)

A directory of written text files is an association list `name ↦ content`;
`storeWrite` models `open(os.path.join(dir, name), "w")`, which replaces any
file of the same name (keys stay unique). -/

/-- Write (create or overwrite) entry `k ↦ v` in a store. -/
def storeWrite : List (String × String) → String → String → List (String × String)
  | [], k, v => [(k, v)]
  | (k', v') :: rest, k, v =>
    if k' == k then (k, v) :: rest else (k', v') :: storeWrite rest k v

/-- Insert a `(name, content)` pair into a name-sorted list (Python's stable
sort; keys are unique in a store). -/
def insertPairByKey (p : String × String) : List (String × String) → List (String × String)
  | [] => [p]
  | q :: qs => if strLtB p.1 q.1 then p :: q :: qs else q :: insertPairByKey p qs

/-- Model of `sorted(directory.glob(...))`: the store's entries in name order. -/
def sortPairsByKey (ps : List (String × String)) : List (String × String) :=
  ps.foldl (fun acc p => insertPairByKey p acc) []

/-! ### Scanner and duplicate detection (`DocConverter.scan`, `_add_file`,
`_detect_duplicates`) -/

/-- `SUPPORTED_EXTENSIONS` from the source. -/
def SUPPORTED_EXTENSIONS : List String :=
  [".pdf", ".pptx", ".docx", ".xlsx", ".xls", ".csv", ".html", ".htm", ".epub", ".json", ".xml"]

/-- The per-document record (`@dataclass DocInfo`). -/
structure DocInfo where
  original_path : String
  file_type : String
  file_size : Nat
  file_size_human : String := ""
  md5 : String := ""
  is_duplicate : Bool := false
  duplicate_of : String := ""
  markdown_path : String := ""
  conversion_status : String := "pending"
  error_message : String := ""
  converted_at : String := ""
deriving Repr, DecidableEq

/-- One file as enumerated by the directory walk, with its streamed MD5 hash.
The walk itself (`_scan_dir`: recursion, exclusion lists, permission errors)
and `_file_md5` are abstracted into this input; `_scan_dir` visits entries in
`sorted(directory.iterdir())` order. -/
structure RawFile where
  path : String
  size : Nat
  md5 : String
deriving Repr, DecidableEq

/-- The level (unit index) chosen by `format_size`'s division loop. -/
def formatSizeLevel (n : Nat) : Nat :=
  if n < 1024 then 0
  else if n < 1024 ^ 2 then 1
  else if n < 1024 ^ 3 then 2
  else if n < 1024 ^ 4 then 3
  else if n < 1024 ^ 5 then 4
  else 5

/-- Model of `format_size`. The source renders a float with one decimal
(`f"{size:.1f} {unit}"`); we render the exact value truncated to tenths by
integer arithmetic. (The float's round-half-even last digit is not modelled;
no claim depends on it.) -/
def format_size (n : Nat) : String :=
  let k := formatSizeLevel n
  let unit := ["B", "KB", "MB", "GB", "TB", "PB"].getD k "PB"
  let tenths := n * 10 / 1024 ^ k
  toString (tenths / 10) ++ "." ++ toString (tenths % 10) ++ " " ++ unit

/-- The lowercased extension computed by `_add_file` (`path.suffix.lower()`). -/
def rawExt (r : RawFile) : String :=
  pyLower (pySuffix r.path)

/-- The `DocInfo` built by `_add_file` for one accepted file. -/
def mkDoc (r : RawFile) : DocInfo :=
  { original_path := r.path
    file_type := rawExt r
    file_size := r.size
    file_size_human := format_size r.size
    md5 := r.md5 }

/-- Stable descending insertion by `file_size`
(`self.documents.sort(key=lambda d: d.file_size, reverse=True)`; Python's
sort is stable, so equal sizes keep enumeration order). -/
def insertBySize (d : DocInfo) : List DocInfo → List DocInfo
  | [] => [d]
  | e :: es => if e.file_size < d.file_size then d :: e :: es else e :: insertBySize d es

/-- The sorted document list (stable, size-descending). -/
def sortBySizeDesc (docs : List DocInfo) : List DocInfo :=
  docs.foldl (fun acc d => insertBySize d acc) []

/-- The scan order: enumerated files filtered by the extension allow-list,
turned into `DocInfo`s, and sorted size-descending. This is the order of
`self.documents` entering `_detect_duplicates`. -/
def scanOrder (files : List RawFile) : List DocInfo :=
  sortBySizeDesc ((files.filter fun r => SUPPORTED_EXTENSIONS.contains (rawExt r)).map mkDoc)

/-- `_detect_duplicates`' loop: `seen` maps an MD5 to the first path carrying
it; later records with a seen MD5 are marked duplicates of that path. -/
def detectDuplicatesAux : List (String × String) → List DocInfo → List DocInfo
  | _, [] => []
  | seen, d :: ds =>
    match List.lookup d.md5 seen with
    | some p => { d with is_duplicate := true, duplicate_of := p } :: detectDuplicatesAux seen ds
    | none => d :: detectDuplicatesAux ((d.md5, d.original_path) :: seen) ds

/-- Model of `DocConverter._detect_duplicates`. -/
def detectDuplicates (docs : List DocInfo) : List DocInfo :=
  detectDuplicatesAux [] docs

/-- Model of `DocConverter.scan`: sort, then mark duplicates. -/
def scanDocs (files : List RawFile) : List DocInfo :=
  detectDuplicates (scanOrder files)

/-! ### Summarization input truncation (`ollama_summarize`) -/

/-- `MAX_CONTENT_CHARS` from the source. -/
def MAX_CONTENT_CHARS : Nat := 8000

/-- The truncation note appended by `ollama_summarize` when content exceeds
the budget (states the kept-prefix budget and the original length). -/
def truncNote (origLen : Nat) : String :=
  "\n\n... (内容已截取前 " ++ toString MAX_CONTENT_CHARS ++ " 字符，原文共 "
    ++ toString origLen ++ " 字符)"

/-- The `{content}` slot of the user prompt built by `ollama_summarize`:
`truncated = content[:MAX_CONTENT_CHARS]`, plus the note iff the original
was strictly longer than the budget. -/
def truncatedForSummary (content : String) : String :=
  let truncated : String := ⟨content.toList.take MAX_CONTENT_CHARS⟩
  if content.length > MAX_CONTENT_CHARS then truncated ++ truncNote content.length
  else truncated

/-- The part of `SUMMARY_USER_PROMPT` before the `{content}` slot
(`{filename}` and `{filetype}` already substituted). -/
def summaryPromptHead (filename filetype : String) : String :=
  "请为以下文档内容生成一份简明的中文摘要，格式要求：\n\n1. 一句话概括核心内容\n2. 3-5 个要点（每个要点一句话）\n3. 3-5 个关键词\n\n文档名: "
    ++ filename ++ "\n文档类型: " ++ filetype ++ "\n\n文档内容:\n"

/-- The part of `SUMMARY_USER_PROMPT` after the `{content}` slot. -/
def summaryPromptTail : String :=
  "\n\n请严格按以下 Markdown 格式输出，不要输出其他内容：\n\n**核心内容**: （一句话概括）\n\n## 要点\n\n- 要点 1\n- 要点 2\n- 要点 3\n\n## 关键词\n\n`关键词1` `关键词2` `关键词3`"

/-- The user prompt sent by `ollama_summarize`
(`SUMMARY_USER_PROMPT.format(filename=…, filetype=…, content=truncated)`). -/
def summaryUserPrompt (filename filetype content : String) : String :=
  summaryPromptHead filename filetype ++ truncatedForSummary content ++ summaryPromptTail

/-! ### Classification response parsing (`ollama_classify`) -/

/-- A parsed classification record. `json.loads` output is modelled as a
complete record (the program reads missing keys with `"未分类"`/`""` defaults
at use sites; parsed records here always carry all four fields). -/
structure Classification where
  topic : String
  usage : String
  client : String
  suggested_name : String
deriving Repr, DecidableEq

/-- The sentinel record returned when parsing fails
(`{"topic": "未分类", "usage": "未分类", "client": "未分类", "suggested_name": ""}`). -/
def sentinelClassification : Classification :=
  { topic := "未分类", usage := "未分类", client := "未分类", suggested_name := "" }

/-- The three-backquote fence delimiter. -/
def ticks : List Char := [bq, bq, bq]

/-- The fence language tag checked by `content.startswith("json")`. -/
def jsonTag : List Char := ['j', 's', 'o', 'n']

/-- The code-fence unwrapping in `ollama_classify`: if the response contains a
fence, keep `content.split(three-backquotes)[1]` and drop a leading `json`
language tag. -/
def extractPayload (content : String) : String :=
  let parts := splitOnSep ticks content.toList
  if parts.length > 1 then
    let c := parts.getD 1 []
    if jsonTag.isPrefixOf c then ⟨c.drop 4⟩ else ⟨c⟩
  else content

/-- The parsing tail of `ollama_classify`: unwrap a possible fence, strip,
`json.loads` (the oracle `parse`, `none` = `JSONDecodeError`), and fall back
to the sentinel on failure — the `try/except` never escapes. -/
def ollamaClassifyParse (parse : String → Option Classification) (content : String) :
    Classification :=
  match parse (pyStrip (extractPayload content)) with
  | some c => c
  | none => sentinelClassification

/-! ### Conversion stage (`DocConverter.convert`) -/

/-- `md_filename = f"{Path(doc.original_path).stem}{doc.file_type}.md"`. -/
def mdFilename (d : DocInfo) : String :=
  pyStem d.original_path ++ d.file_type ++ ".md"

/-- The markdown artifact written for one converted document (header lines
plus the converter's text; `datetime.now()` is the explicit `now`). -/
def renderMd (d : DocInfo) (content now : String) : String :=
  "# " ++ pyStem d.original_path ++ "\n\n"
    ++ "> 原始文件: " ++ d.original_path ++ "\n"
    ++ "> 文件类型: " ++ d.file_type ++ " | 大小: " ++ d.file_size_human ++ "\n"
    ++ "> 转换时间: " ++ now ++ "\n\n"
    ++ "---\n\n"
    ++ content

/-- One iteration of the conversion loop: duplicates are skipped without
calling the converter; otherwise the converter oracle runs and the outcome is
recorded on the ledger entry (`success` with artifact path, or `failed` with
the exception text). Returns the updated entry and the artifact write, if
any. The artifact path is its file name (the `converted/` directory prefix is
constant and omitted). -/
def convertDoc (conv : String → Except String String) (now : String) (d : DocInfo) :
    DocInfo × Option (String × String) :=
  if d.is_duplicate then
    ({ d with conversion_status := "skipped_duplicate" }, none)
  else
    match conv d.original_path with
    | Except.ok content =>
      ({ d with markdown_path := mdFilename d
                conversion_status := "success"
                converted_at := now },
        some (mdFilename d, renderMd d content now))
    | Except.error e =>
      ({ d with conversion_status := "failed", error_message := e }, none)

/-- The conversion loop over `self.documents`: threads the `converted/` store
and logs (ghost instrumentation) the original paths on which the converter
oracle was actually invoked. Returns (updated documents, store, invocation log). -/
def convertAll (conv : String → Except String String) (now : String) :
    List DocInfo → List (String × String) → List DocInfo × List (String × String) × List String
  | [], store => ([], store, [])
  | d :: ds, store =>
    let step := convertDoc conv now d
    let store' := match step.2 with
      | some kv => storeWrite store kv.1 kv.2
      | none => store
    let rest := convertAll conv now ds store'
    (step.1 :: rest.1, rest.2.1, (if d.is_duplicate then [] else [d.original_path]) ++ rest.2.2)

/-! ### Summarization stage (`DocConverter.summarize`) -/

/-- One row of the `results` list built by `summarize`. -/
structure SumResult where
  file : String
  status : String
  brief_path : String := ""
  reason : String := ""
  error : String := ""
deriving Repr, DecidableEq

/-- The brief artifact written for one summarized document. -/
def renderBrief (name filetype model summary : String) : String :=
  "# " ++ name ++ " 摘要\n\n"
    ++ "**文件类型**: " ++ filetype ++ " | "
    ++ "**模型**: " ++ model ++ "\n\n"
    ++ summary ++ "\n"

/-- One iteration of the summarization loop over a converted markdown file
`(mdName, content)`: skip thin content, otherwise call the `ollama_summarize`
oracle `gen content name filetype model`; a failure is recorded and the loop
moves on. Returns the brief write (if any) and the result row. The brief path
is its file name (the `briefs/` directory prefix is constant and omitted). -/
def summarizeOne (gen : String → String → String → String → Except String String)
    (model mdName content : String) : Option (String × String) × SumResult :=
  let name := pyStemName mdName
  if (pyStrip content).length < 50 then
    (none, { file := mdName, status := "skipped", reason := "内容过少" })
  else
    let filetype := rsplitExt name
    match gen content name filetype model with
    | Except.ok summary =>
      (some (name ++ ".brief.md", renderBrief name filetype model summary),
        { file := mdName, status := "success", brief_path := name ++ ".brief.md" })
    | Except.error e =>
      (none, { file := mdName, status := "failed", error := e })

/-- The summarization loop over the sorted `*.md` files: threads the
`briefs/` store and collects the result rows. -/
def summarizeAll (gen : String → String → String → String → Except String String)
    (model : String) :
    List (String × String) → List (String × String) → List (String × String) × List SumResult
  | [], briefs => (briefs, [])
  | (mdName, content) :: rest, briefs =>
    let step := summarizeOne gen model mdName content
    let briefs' := match step.1 with
      | some kv => storeWrite briefs kv.1 kv.2
      | none => briefs
    let tail := summarizeAll gen model rest briefs'
    (tail.1, step.2 :: tail.2)

/-! ### Classification and materialization (`DocConverter.organize`) -/

/-- One entry of the `classifications` list (`cats` dict plus the `filename`
and `original_path` keys added by `organize`). -/
structure ClsItem where
  topic : String
  usage : String
  client : String
  suggested_name : String
  filename : String
  original_path : String
deriving Repr, DecidableEq

/-- `doc_key = bf.stem.replace(".brief", "")`. -/
def docKeyOfBrief (briefName : String) : String :=
  pyReplace (pyStemName briefName) ".brief" ""

/-- `orig_map`: `Path(doc.original_path).stem + doc.file_type ↦ original_path`
over `self.documents` (a dict build, so a later document with the same key
overwrites an earlier one). -/
def buildOrigMap (docs : List DocInfo) : List (String × String) :=
  docs.foldl (fun m d => storeWrite m (pyStem d.original_path ++ d.file_type) d.original_path) []

/-- One iteration of the classification loop over a brief file: resolve the
original path from `orig_map` (default `""`), call the classify oracle
(`ollama_classify`; `Except.error` = a raised request exception), and on
failure fall back to an unclassified entry — the loop continues either way. -/
def classifyOne (cls : String → String → Except String Classification)
    (origMap : List (String × String)) (briefName briefContent : String) : ClsItem :=
  let doc_key := docKeyOfBrief briefName
  let orig_path := (List.lookup doc_key origMap).getD ""
  match cls briefContent doc_key with
  | Except.ok c =>
    { topic := c.topic, usage := c.usage, client := c.client
      suggested_name := c.suggested_name, filename := doc_key, original_path := orig_path }
  | Except.error _ =>
    { topic := "未分类", usage := "未分类", client := "未分类"
      suggested_name := "", filename := doc_key, original_path := orig_path }

/-- The classification loop over the sorted `*.brief.md` files. -/
def classifyAll (cls : String → String → Except String Classification)
    (origMap : List (String × String)) : List (String × String) → List ClsItem
  | [] => []
  | (bn, bc) :: rest => classifyOne cls origMap bn bc :: classifyAll cls origMap rest

/-- One symlink in the materialized `schemes/` tree:
`schemes/{scheme}/{category}/{name} -> target`. -/
structure LinkEntry where
  scheme : String
  category : String
  name : String
  target : String
deriving Repr, DecidableEq

/-- `scheme_names`: directory name ↦ classification dict key. -/
def schemeNames : List (String × String) :=
  [("by-topic", "topic"), ("by-usage", "usage"), ("by-client", "client")]

/-- `item.get(cat_key, "未分类")` on a classification entry. -/
def catOf (item : ClsItem) (cat_key : String) : String :=
  if cat_key = "topic" then item.topic
  else if cat_key = "usage" then item.usage
  else if cat_key = "client" then item.client
  else "未分类"

/-- The link name: the suggested name (with the original extension) when
`--rename` is given and a suggestion exists, else the original file name.
`os.path.abspath` on the target is modelled as the identity. -/
def linkName (rename : Bool) (item : ClsItem) : String :=
  if rename && item.suggested_name != "" then
    item.suggested_name ++ pySuffix item.original_path
  else basename item.original_path

/-- `os.path.exists(dst)` on the tree being built. -/
def linkExists (tree : List LinkEntry) (scheme category name : String) : Bool :=
  tree.any fun t => t.scheme == scheme && t.category == category && t.name == name

/-- One iteration of the link-creation loop: entries without a resolved
original path are skipped; an existing destination is left untouched
(`if not os.path.exists(dst): os.symlink(src, dst)`). -/
def addLink (rename : Bool) (scheme cat_key : String) (tree : List LinkEntry)
    (item : ClsItem) : List LinkEntry :=
  if item.original_path == "" then tree
  else
    let category := catOf item cat_key
    let nm := linkName rename item
    if linkExists tree scheme category nm then tree
    else tree ++ [{ scheme := scheme, category := category, name := nm
                    target := item.original_path }]

/-- The double loop creating the three scheme trees, starting from tree
state `tree₀`. -/
def buildLinks (tree₀ : List LinkEntry) (rename : Bool) (items : List ClsItem) :
    List LinkEntry :=
  schemeNames.foldl (fun tree sc => items.foldl (addLink rename sc.1 sc.2) tree) tree₀

/-- The materialization step of `organize`: any prior `schemes/` tree is
removed (`shutil.rmtree`) and the link tree is rebuilt from scratch from the
current classifications. -/
def organizeMaterialize (_priorTree : List LinkEntry) (rename : Bool)
    (items : List ClsItem) : List LinkEntry :=
  buildLinks [] rename items

/-! ### The composed pipeline (used by the scenario claims) -/

/-- The `converted/` store produced by `--convert` on a scanned file set. -/
def pipelineStore (conv : String → Except String String) (now : String)
    (files : List RawFile) : List (String × String) :=
  (convertAll conv now (scanDocs files) []).2.1

/-- The `briefs/` store produced by a following `--summarize`. -/
def pipelineBriefs (conv : String → Except String String)
    (gen : String → String → String → String → Except String String)
    (model now : String) (files : List RawFile) : List (String × String) :=
  (summarizeAll gen model (sortPairsByKey (pipelineStore conv now files)) []).1

/-- The classification list produced by a following `--organize`. -/
def pipelineItems (conv : String → Except String String)
    (gen : String → String → String → String → Except String String)
    (cls : String → String → Except String Classification)
    (model now : String) (files : List RawFile) : List ClsItem :=
  classifyAll cls (buildOrigMap (scanDocs files))
    (sortPairsByKey ((pipelineBriefs conv gen model now files).filter
      fun p => strEndsWith p.1 ".brief.md"))

/-- The materialized `schemes/` tree of the full pipeline run. -/
def pipelineRun (conv : String → Except String String)
    (gen : String → String → String → String → Except String String)
    (cls : String → String → Except String Classification)
    (model now : String) (rename : Bool) (files : List RawFile) : List LinkEntry :=
  buildLinks [] rename (pipelineItems conv gen cls model now files)

/-! ### Ollama availability check and CLI dispatch (`check_ollama`, `main`) -/

/-- Outcome of `GET /api/tags`: connection error, another exception, or an
HTTP status with the installed model names. -/
inductive TagsResult
  | connectionError
  | otherError (msg : String)
  | httpStatus (code : Nat) (models : List String)
deriving Repr, DecidableEq

/-- Model of `check_ollama`: reachability of the service and (substring-based)
presence of the requested model. -/
def check_ollama (resp : TagsResult) (model : String) : Bool × String :=
  match resp with
  | TagsResult.connectionError => (false, "Ollama 未启动，请运行: ollama serve")
  | TagsResult.otherError e => (false, "Ollama 检查失败: " ++ e)
  | TagsResult.httpStatus code models =>
    if code ≠ 200 then (false, "Ollama 服务未响应")
    else
      let base_name := if containsSubstr ":" model then
          ⟨((splitOnSep [':'] model.toList).headD model.toList)⟩
        else model
      let found := models.any fun m => containsSubstr model m || containsSubstr base_name m
      if !found then (false, "模型 " ++ model ++ " 未安装，请运行: ollama pull " ++ model)
      else (true, "")

/-- The parsed CLI arguments (`argparse` flags, in declaration order). -/
structure Args where
  preview : Bool
  convert : Bool
  summarize : Bool
  organize : Bool
  rename : Bool
  model : String
  confirm : Bool
  jsonOut : Bool
deriving Repr, DecidableEq

/-- Observable control-flow events of `main` (stage executions, refusals and
exits; `exitErr` is `sys.exit(1)` and truncates the trace). -/
inductive Event
  | printHelp
  | previewRun
  | confirmRefused
  | missingMarkitdown
  | convertRun
  | ollamaError
  | summarizeRun
  | organizeRun
  | exitErr
deriving Repr, DecidableEq

/-- Model of `main` after argument parsing: the sequence of observable events
for given arguments, markitdown importability, and Ollama tags response.
`ollamaError` is the printed `check_ollama` failure message. -/
def mainDispatch (args : Args) (mdOk : Bool) (resp : TagsResult) : List Event :=
  if !args.preview && !args.convert && !args.summarize && !args.organize then
    [Event.printHelp]
  else if args.preview then
    [Event.previewRun]
  else if args.convert && !args.confirm then
    [Event.confirmRefused]
  else if args.convert && !mdOk then
    [Event.missingMarkitdown, Event.exitErr]
  else
    let t0 := if args.convert then [Event.convertRun] else []
    if args.summarize then
      if (check_ollama resp args.model).1 = false then
        t0 ++ [Event.ollamaError, Event.exitErr]
      else
        let t1 := t0 ++ [Event.summarizeRun]
        if args.organize then
          if (check_ollama resp args.model).1 = false then
            t1 ++ [Event.ollamaError, Event.exitErr]
          else t1 ++ [Event.organizeRun]
        else t1
    else if args.organize then
      if (check_ollama resp args.model).1 = false then
        t0 ++ [Event.ollamaError, Event.exitErr]
      else t0 ++ [Event.organizeRun]
    else t0

end DocConv


namespace DocConv

/-! ### Concrete inputs used by scenario claims and witnesses -/

/-- The spec's scenario file set: `a.pdf` (500KB), `b.pdf` (500KB,
byte-identical to `a.pdf`, so equal MD5), `c.pptx` (2MB), in the walk's
alphabetical enumeration order. -/
def scenarioFiles : List RawFile :=
  [⟨"docs/a.pdf", 500000, "hab"⟩, ⟨"docs/b.pdf", 500000, "hab"⟩, ⟨"docs/c.pptx", 2000000, "hc"⟩]

/-- A converter oracle that succeeds with per-file text. -/
def scenarioConv : String → Except String String :=
  fun p => Except.ok ("正文内容 BODY OF " ++ p)

/-- A summarize oracle that always succeeds. -/
def scenarioGen : String → String → String → String → Except String String :=
  fun _ _ _ _ => Except.ok "这是摘要正文"

/-- A classify oracle returning one fixed classification. -/
def scenarioCls : String → String → Except String Classification :=
  fun _ _ => Except.ok { topic := "方案", usage := "培训", client := "通用", suggested_name := "" }

/-- A ledger entry already recorded as successfully converted. -/
def docAlreadyConverted : DocInfo :=
  { mkDoc ⟨"docs/r.pdf", 10, "h1"⟩ with
      conversion_status := "success", markdown_path := "r.pdf.md", converted_at := "t0" }

/-- Two distinct, non-duplicate files in different directories sharing one
basename. -/
def collideFiles : List RawFile :=
  [⟨"dirA/report.pdf", 100, "h1"⟩, ⟨"dirB/report.pdf", 90, "h2"⟩]

/-- A converter oracle whose output text is the input path (so the artifacts
of distinct files are distinguishable). -/
def collideConv : String → Except String String :=
  fun p => Except.ok p

/-- The canonical-per-hash property established by `scan`: the hash's first
record in scan order is the unique non-duplicate carrier of that hash, and
every other carrier points back to its path. -/
def dedupCanonicalProp (files : List RawFile) (h : String) : Prop :=
  ∃ c, List.find? (fun d => d.md5 == h) (scanOrder files) = some c
    ∧ List.countP (fun d => d.md5 == h && !d.is_duplicate) (scanDocs files) = 1
    ∧ List.find? (fun d => d.md5 == h && !d.is_duplicate) (scanDocs files) = some c
    ∧ ∀ d ∈ scanDocs files, d.md5 = h → d.is_duplicate = true →
        d.duplicate_of = c.original_path

/-! ### Helper lemmas: `str.split` -/

theorem goSplit_skip (sep : List Char) :
    ∀ (xs rest acc : List Char), goSplit sep xs.length (xs ++ rest) acc
      = goSplit sep 0 rest acc := by
  intro xs
  induction xs with
  | nil => intro rest acc; rfl
  | cons x xs ih =>
    intro rest acc
    show goSplit sep (xs.length + 1) (x :: (xs ++ rest)) acc = _
    rw [goSplit]
    exact ih rest acc

theorem goSplit_no_sep_occurrence (sep : List Char) :
    ∀ (s : List Char), ¬ sep <:+: s → ∀ acc, goSplit sep 0 s acc = [acc.reverse ++ s] := by
  intro s
  induction s with
  | nil => intro _ acc; simp [goSplit]
  | cons c cs ih =>
    intro h acc
    have hp : sep.isPrefixOf (c :: cs) = false := by
      rw [Bool.eq_false_iff]
      intro hp
      exact h ( List.isPrefixOf_iff_prefix.mp hp).isInfix
    have hcs : ¬ sep <:+: cs := fun hi => h (List.infix_cons hi)
    simp only [goSplit, hp, Bool.false_eq_true, if_false]
    rw [ih hcs (c :: acc)]
    simp

theorem goSplit_cut (x : Char) (xs rest acc : List Char) :
    goSplit (x :: xs) 0 ((x :: xs) ++ rest) acc
      = acc.reverse :: goSplit (x :: xs) 0 rest [] := by
  have hp : (x :: xs).isPrefixOf (x :: (xs ++ rest)) = true := by
    rw [← List.cons_append]
    exact List.isPrefixOf_iff_prefix.mpr (List.prefix_append _ _)
  show goSplit (x :: xs) 0 (x :: (xs ++ rest)) acc = _
  simp only [goSplit, hp, if_true]
  congr 1
  have hlen : (x :: xs).length - 1 = xs.length := by simp
  rw [hlen, goSplit_skip]

theorem goSplit_free_then_cut (x : Char) (xs : List Char) :
    ∀ (m : List Char), x ∉ m → ∀ acc rest,
      goSplit (x :: xs) 0 (m ++ (x :: xs) ++ rest) acc
        = (acc.reverse ++ m) :: goSplit (x :: xs) 0 rest [] := by
  intro m
  induction m with
  | nil =>
    intro _ acc rest
    simpa using goSplit_cut x xs rest acc
  | cons c m' ih =>
    intro hnm acc rest
    have hcx : (x == c) = false := by
      rw [beq_eq_false_iff_ne]
      intro he
      exact hnm (he ▸ List.mem_cons_self c m')
    have hp : (x :: xs).isPrefixOf (c :: (m' ++ (x :: xs) ++ rest)) = false := by
      simp [List.isPrefixOf, hcx]
    show goSplit (x :: xs) 0 (c :: (m' ++ (x :: xs) ++ rest)) acc = _
    simp only [goSplit, hp, Bool.false_eq_true, if_false]
    rw [ih (fun hm => hnm (List.mem_cons_of_mem _ hm)) (c :: acc) rest]
    simp

theorem splitOnSep_eq_single (sep s : List Char) (hs : ¬ sep <:+: s) :
    splitOnSep sep s = [s] := by
  unfold splitOnSep
  rw [goSplit_no_sep_occurrence sep s hs []]
  simp

theorem bq_mem_of_ticks_within {l : List Char} (h : ticks <:+: l) : bq ∈ l := by
  obtain ⟨u, v, rfl⟩ := h
  simp [ticks]

theorem splitOnSep_ticks_wrapped (s : List Char) (hs : bq ∉ s) :
    splitOnSep ticks (ticks ++ (jsonTag ++ s) ++ ticks) = [[], jsonTag ++ s, []] := by
  have hmem : bq ∉ jsonTag ++ s := by
    intro hm
    rcases List.mem_append.mp hm with h1 | h2
    · exact absurd h1 (by decide)
    · exact hs h2
  show goSplit (bq :: [bq, bq]) 0 ((bq :: [bq, bq]) ++ ((jsonTag ++ s) ++ (bq :: [bq, bq]))) [] = _
  rw [goSplit_cut]
  have h2 : (jsonTag ++ s) ++ (bq :: [bq, bq])
      = (jsonTag ++ s) ++ (bq :: [bq, bq]) ++ ([] : List Char) := by simp
  rw [h2, goSplit_free_then_cut bq [bq, bq] (jsonTag ++ s) hmem [] []]
  simp [goSplit]

theorem extractPayload_wrapped (s : String) (hs : bq ∉ s.toList) :
    extractPayload ("```json" ++ s ++ "```") = s := by
  have hdata : ("```json" ++ s ++ "```").toList = ticks ++ (jsonTag ++ s.data) ++ ticks := by
    show (("```json" ++ s) ++ "```").data = _
    rw [String.data_append, String.data_append]
    show (ticks ++ jsonTag) ++ s.data ++ ticks = ticks ++ (jsonTag ++ s.data) ++ ticks
    simp [List.append_assoc]
  have hsplit : splitOnSep ticks ("```json" ++ s ++ "```").toList = [[], jsonTag ++ s.data, []] := by
    rw [hdata]
    exact splitOnSep_ticks_wrapped s.data hs
  have hjson : jsonTag <+: (jsonTag ++ s.data) := List.prefix_append _ _
  have hdrop : List.drop 4 (jsonTag ++ s.data) = s.data := by
    have h4 : (4 : Nat) = jsonTag.length := rfl
    rw [h4, List.drop_left]
  simp only [extractPayload]
  rw [hsplit]
  simp [hjson, hdrop]

theorem extractPayload_free (s : String) (hs : bq ∉ s.toList) :
    extractPayload s = s := by
  have hni : ¬ ticks <:+: s.data := fun hi => hs (bq_mem_of_ticks_within hi)
  simp [extractPayload, splitOnSep_eq_single ticks s.data hni]

/-- C5: a generator response whose JSON is wrapped in a fenced code block with
a `json` language tag parses to the same result as the identical payload
unwrapped (for payloads not themselves containing a backquote, the fenced-block
shape), and any response whose unwrapped payload `json.loads` rejects yields
the sentinel unclassified record — the `try/except` makes the parse total, so
no exception escapes to abort the run. -/
theorem c5_fence_unwrap_and_sentinel (parse : String → Option Classification) (s : String)
    (hs : bq ∉ s.toList) :
    ollamaClassifyParse parse ("```json" ++ s ++ "```") = ollamaClassifyParse parse s
    ∧ ∀ content : String, parse (pyStrip (extractPayload content)) = none →
        ollamaClassifyParse parse content = sentinelClassification := by
  constructor
  · unfold ollamaClassifyParse
    rw [extractPayload_wrapped s hs, extractPayload_free s hs]
  · intro content h
    unfold ollamaClassifyParse
    rw [h]

/-- Witness for C5: a concrete backquote-free payload, wrapped and unwrapped. -/
theorem c5_fence_unwrap_and_sentinel_witness :
    (bq ∉ "payload".toList)
    ∧ ollamaClassifyParse (fun _ => none) ("```json" ++ "payload" ++ "```")
        = ollamaClassifyParse (fun _ => none) "payload" :=
  ⟨by decide, (c5_fence_unwrap_and_sentinel (fun _ => none) "payload" (by decide)).1⟩

/-! ### Helper lemmas: duplicate detection and scan order -/

theorem mem_insertBySize {a d : DocInfo} :
    ∀ {l : List DocInfo}, a ∈ insertBySize d l → a = d ∨ a ∈ l := by
  intro l
  induction l with
  | nil => intro h; simpa [insertBySize] using h
  | cons e es ih =>
    intro h
    by_cases hs : e.file_size < d.file_size
    · simp only [insertBySize, if_pos hs] at h
      rcases List.mem_cons.mp h with rfl | h2
      · exact Or.inl rfl
      · exact Or.inr h2
    · simp only [insertBySize, if_neg hs] at h
      rcases List.mem_cons.mp h with rfl | h2
      · exact Or.inr (List.mem_cons_self _ _)
      · rcases ih h2 with h3 | h3
        · exact Or.inl h3
        · exact Or.inr (List.mem_cons_of_mem _ h3)

theorem mem_sortBySizeDesc_aux {a : DocInfo} :
    ∀ (l : List DocInfo) (acc : List DocInfo),
      a ∈ l.foldl (fun acc d => insertBySize d acc) acc → a ∈ acc ∨ a ∈ l := by
  intro l
  induction l with
  | nil => intro acc h; exact Or.inl h
  | cons d ds ih =>
    intro acc h
    rcases ih (insertBySize d acc) h with h1 | h1
    · rcases mem_insertBySize h1 with rfl | h2
      · exact Or.inr (List.mem_cons_self _ _)
      · exact Or.inl h2
    · exact Or.inr (List.mem_cons_of_mem _ h1)

theorem mem_sortBySizeDesc {a : DocInfo} {l : List DocInfo}
    (h : a ∈ sortBySizeDesc l) : a ∈ l := by
  rcases mem_sortBySizeDesc_aux l [] h with h1 | h1
  · cases h1
  · exact h1

theorem clean_scanOrder (files : List RawFile) :
    ∀ d ∈ scanOrder files, d.is_duplicate = false := by
  intro d hd
  have hd2 := mem_sortBySizeDesc hd
  rcases List.mem_map.mp hd2 with ⟨r, _, rfl⟩
  rfl

theorem find?_of_exists {p : DocInfo → Bool} :
    ∀ {l : List DocInfo}, (∃ d ∈ l, p d = true) → ∃ c, List.find? p l = some c := by
  intro l
  induction l with
  | nil => rintro ⟨d, hd, _⟩; cases hd
  | cons a l ih =>
    rintro ⟨d, hd, hp⟩
    by_cases hpa : p a = true
    · exact ⟨a, List.find?_cons_of_pos _ hpa⟩
    · rcases List.mem_cons.mp hd with rfl | hdl
      · exact absurd hp hpa
      · obtain ⟨c, hc⟩ := ih ⟨d, hdl, hp⟩
        exact ⟨c, by rw [List.find?_cons_of_neg _ hpa]; exact hc⟩

theorem detectAux_hash_seen (h p : String) :
    ∀ (docs : List DocInfo) (seen : List (String × String)),
      List.lookup h seen = some p →
      List.countP (fun d => d.md5 == h && !d.is_duplicate) (detectDuplicatesAux seen docs) = 0
      ∧ ∀ d ∈ detectDuplicatesAux seen docs, d.md5 = h →
          d.is_duplicate = true ∧ d.duplicate_of = p := by
  intro docs
  induction docs with
  | nil => intro seen _; simp [detectDuplicatesAux]
  | cons d ds ih =>
    intro seen hlook
    cases hld : List.lookup d.md5 seen with
    | some q =>
      obtain ⟨ih1, ih2⟩ := ih seen hlook
      simp only [detectDuplicatesAux, hld]
      constructor
      · rw [List.countP_cons, ih1]
        simp
      · intro d' hd' hm
        rcases List.mem_cons.mp hd' with rfl | hmem
        · refine ⟨rfl, ?_⟩
          have hmd : d.md5 = h := hm
          rw [hmd] at hld
          rw [hld] at hlook
          exact Option.some_inj.mp hlook
        · exact ih2 d' hmem hm
    | none =>
      have hne : d.md5 ≠ h := by
        intro he
        rw [he, hlook] at hld
        cases hld
      have hbeq : (h == d.md5) = false := beq_eq_false_iff_ne.mpr (fun he => hne he.symm)
      have hlook2 : List.lookup h ((d.md5, d.original_path) :: seen) = some p := by
        simp [List.lookup, hbeq, hlook]
      obtain ⟨ih1, ih2⟩ := ih ((d.md5, d.original_path) :: seen) hlook2
      simp only [detectDuplicatesAux, hld]
      constructor
      · rw [List.countP_cons, ih1]
        simp [beq_eq_false_iff_ne.mpr hne]
      · intro d' hd' hm
        rcases List.mem_cons.mp hd' with rfl | hmem
        · exact absurd hm hne
        · exact ih2 d' hmem hm

theorem detectAux_hash_new (h : String) (c : DocInfo) :
    ∀ (docs : List DocInfo) (seen : List (String × String)),
      List.lookup h seen = none →
      List.find? (fun d => d.md5 == h) docs = some c →
      (∀ d ∈ docs, d.is_duplicate = false) →
      List.countP (fun d => d.md5 == h && !d.is_duplicate) (detectDuplicatesAux seen docs) = 1
      ∧ List.find? (fun d => d.md5 == h && !d.is_duplicate) (detectDuplicatesAux seen docs)
          = some c
      ∧ ∀ d ∈ detectDuplicatesAux seen docs, d.md5 = h → d.is_duplicate = true →
          d.duplicate_of = c.original_path := by
  intro docs
  induction docs with
  | nil => intro seen _ hfind _; cases hfind
  | cons d ds ih =>
    intro seen hseen hfind hclean
    have hcleand : d.is_duplicate = false := hclean d (List.mem_cons_self _ _)
    have hcleands : ∀ x ∈ ds, x.is_duplicate = false :=
      fun x hx => hclean x (List.mem_cons_of_mem _ hx)
    by_cases hdh : (d.md5 == h) = true
    · have hmd : d.md5 = h := by simpa using hdh
      have hc : c = d := by
        rw [@List.find?_cons_of_pos _ (fun (x : DocInfo) => x.md5 == h) d ds hdh] at hfind
        exact (Option.some_inj.mp hfind).symm
      have hld : List.lookup d.md5 seen = none := by rw [hmd]; exact hseen
      have hlook2 : List.lookup h ((d.md5, d.original_path) :: seen)
          = some d.original_path := by
        simp [List.lookup, hmd]
      obtain ⟨hs1, hs2⟩ :=
        detectAux_hash_seen h d.original_path ds ((d.md5, d.original_path) :: seen) hlook2
      have hpred : (d.md5 == h && !d.is_duplicate) = true := by
        rw [hdh, hcleand]
        rfl
      simp only [detectDuplicatesAux, hld]
      refine ⟨?_, ?_, ?_⟩
      · rw [List.countP_cons, hs1, hpred]
        rfl
      · rw [@List.find?_cons_of_pos _ (fun (x : DocInfo) => x.md5 == h && !x.is_duplicate) d _ hpred, hc]
      · intro d' hd' hm hdup
        rcases List.mem_cons.mp hd' with rfl | hmem
        · rw [hcleand] at hdup
          cases hdup
        · rw [hc]
          exact (hs2 d' hmem hm).2
    · have hne : d.md5 ≠ h := fun he => hdh (by simpa using he)
      have hfind2 : List.find? (fun d => d.md5 == h) ds = some c := by
        rw [@List.find?_cons_of_neg _ (fun (x : DocInfo) => x.md5 == h) d ds hdh] at hfind
        exact hfind
      have hpredf : (d.md5 == h && !d.is_duplicate) = false := by
        simp [beq_eq_false_iff_ne.mpr hne]
      cases hld : List.lookup d.md5 seen with
      | some q =>
        obtain ⟨ih1, ih2, ih3⟩ := ih seen hseen hfind2 hcleands
        simp only [detectDuplicatesAux, hld]
        refine ⟨?_, ?_, ?_⟩
        · rw [List.countP_cons, ih1]
          simp [beq_eq_false_iff_ne.mpr hne]
        · rw [@List.find?_cons_of_neg _ (fun (x : DocInfo) => x.md5 == h && !x.is_duplicate) _ _
            (by simp [beq_eq_false_iff_ne.mpr hne])]
          exact ih2
        · intro d' hd' hm hdup
          rcases List.mem_cons.mp hd' with rfl | hmem
          · exact absurd hm hne
          · exact ih3 d' hmem hm hdup
      | none =>
        have hbeq : (h == d.md5) = false := beq_eq_false_iff_ne.mpr (fun he => hne he.symm)
        have hseen2 : List.lookup h ((d.md5, d.original_path) :: seen) = none := by
          simp [List.lookup, hbeq, hseen]
        obtain ⟨ih1, ih2, ih3⟩ := ih ((d.md5, d.original_path) :: seen) hseen2 hfind2 hcleands
        simp only [detectDuplicatesAux, hld]
        refine ⟨?_, ?_, ?_⟩
        · rw [List.countP_cons, ih1, hpredf]
          rfl
        · rw [@List.find?_cons_of_neg _ (fun (x : DocInfo) => x.md5 == h && !x.is_duplicate) d _
            (by simp [hpredf])]
          exact ih2
        · intro d' hd' hm hdup
          rcases List.mem_cons.mp hd' with rfl | hmem
          · exact absurd hm hne
          · exact ih3 d' hmem hm hdup

/-- C3: after `scan`, each content hash present among the scanned documents has
exactly one record with `is_duplicate = false` — the first record for the hash in the
deterministic scan order (size-descending, stable) — and every other record
with that hash is marked duplicate with `duplicate_of` equal to the
`original_path` of that canonical record. -/
theorem c3_canonical_per_hash (files : List RawFile) (h : String)
    (hex : ∃ d ∈ scanOrder files, d.md5 = h) :
    dedupCanonicalProp files h := by
  have hex2 : ∃ d ∈ scanOrder files, (fun (x : DocInfo) => x.md5 == h) d = true := by
    obtain ⟨d, hd, hm⟩ := hex
    exact ⟨d, hd, by simpa using hm⟩
  obtain ⟨c, hc⟩ := find?_of_exists hex2
  obtain ⟨h1, h2, h3⟩ :=
    detectAux_hash_new h c (scanOrder files) [] rfl hc (clean_scanOrder files)
  exact ⟨c, hc, h1, h2, h3⟩

/-- Witness for C3 on the three-file scenario, hash of the identical pair. -/
theorem c3_canonical_per_hash_witness :
    (∃ d ∈ scanOrder scenarioFiles, d.md5 = "hab") ∧ dedupCanonicalProp scenarioFiles "hab" :=
  ⟨by decide, c3_canonical_per_hash scenarioFiles "hab" (by decide)⟩

/-! ### Helper lemmas: the per-file stage loops -/

theorem convertAll_docs (conv : String → Except String String) (now : String) :
    ∀ (docs : List DocInfo) (store : List (String × String)),
      (convertAll conv now docs store).1 = docs.map fun d => (convertDoc conv now d).1 := by
  intro docs
  induction docs with
  | nil => intro store; rfl
  | cons d ds ih =>
    intro store
    simp only [convertAll, List.map_cons]
    rw [ih]

theorem convertAll_log (conv : String → Except String String) (now : String) :
    ∀ (docs : List DocInfo) (store : List (String × String)),
      (convertAll conv now docs store).2.2
        = (docs.filter fun d => !d.is_duplicate).map fun d => d.original_path := by
  intro docs
  induction docs with
  | nil => intro store; rfl
  | cons d ds ih =>
    intro store
    by_cases hd : d.is_duplicate
    · simp [convertAll, hd, ih]
    · simp [convertAll, hd, ih]

theorem convertDoc_dup (conv : String → Except String String) (now : String) (d : DocInfo)
    (h : d.is_duplicate = true) :
    (convertDoc conv now d).1 = { d with conversion_status := "skipped_duplicate" } := by
  simp [convertDoc, h]

theorem convertDoc_err (conv : String → Except String String) (now : String) (d : DocInfo)
    (e : String) (h1 : d.is_duplicate = false) (h2 : conv d.original_path = Except.error e) :
    (convertDoc conv now d).1.conversion_status = "failed"
    ∧ (convertDoc conv now d).1.error_message = e := by
  simp [convertDoc, h1, h2]

theorem summarizeAll_results (gen : String → String → String → String → Except String String)
    (model : String) :
    ∀ (mdFiles briefs : List (String × String)),
      (summarizeAll gen model mdFiles briefs).2
        = mdFiles.map fun pr => (summarizeOne gen model pr.1 pr.2).2 := by
  intro mdFiles
  induction mdFiles with
  | nil => intro briefs; rfl
  | cons pr rest ih =>
    intro briefs
    cases pr
    simp only [summarizeAll, List.map_cons]
    rw [ih]

theorem summarizeOne_err (gen : String → String → String → String → Except String String)
    (model nm ct e : String) (h1 : ¬ (pyStrip ct).length < 50)
    (h2 : gen ct (pyStemName nm) (rsplitExt (pyStemName nm)) model = Except.error e) :
    (summarizeOne gen model nm ct).2.status = "failed"
    ∧ (summarizeOne gen model nm ct).2.error = e := by
  simp [summarizeOne, h1, h2]

theorem classifyAll_eq_map (cls : String → String → Except String Classification)
    (origMap : List (String × String)) :
    ∀ bfs : List (String × String),
      classifyAll cls origMap bfs = bfs.map fun pr => classifyOne cls origMap pr.1 pr.2 := by
  intro bfs
  induction bfs with
  | nil => rfl
  | cons pr rest ih =>
    cases pr
    simp only [classifyAll, List.map_cons]
    rw [ih]

theorem classifyOne_fields (cls : String → String → Except String Classification)
    (origMap : List (String × String)) (bn bc : String) :
    (classifyOne cls origMap bn bc).filename = docKeyOfBrief bn
    ∧ (classifyOne cls origMap bn bc).original_path
        = (List.lookup (docKeyOfBrief bn) origMap).getD "" := by
  unfold classifyOne
  cases h : cls bc (docKeyOfBrief bn) <;> simp [h]

theorem classifyOne_err (cls : String → String → Except String Classification)
    (origMap : List (String × String)) (bn bc e : String)
    (h : cls bc (docKeyOfBrief bn) = Except.error e) :
    classifyOne cls origMap bn bc
      = { topic := "未分类", usage := "未分类", client := "未分类", suggested_name := ""
          filename := docKeyOfBrief bn
          original_path := (List.lookup (docKeyOfBrief bn) origMap).getD "" } := by
  simp [classifyOne, h]

/-- C1 counterexample: an entry whose ledger already records `success` for
conversion (and which is not a duplicate) is nevertheless processed again by
a re-invocation of the conversion stage — the converter-invocation log of the
run contains its path, and there is no force flag that this skipping could be
conditioned on. This falsifies "re-invoking that stage skips re-processing". -/
theorem c1_counterexample :
    docAlreadyConverted.conversion_status = "success"
    ∧ docAlreadyConverted.is_duplicate = false
    ∧ (convertAll (fun _ => Except.ok "converted body") "t1" [docAlreadyConverted] []).2.2
        = ["docs/r.pdf"] :=
  ⟨rfl, rfl, rfl⟩

/-- C1 amended: a (re-)invocation of the conversion stage invokes the
converter on exactly the non-duplicate documents of the scan, in scan order,
regardless of any previously recorded per-entry status (there is no
ledger-level skip and no force flag; only duplicates are skipped, marked
`skipped_duplicate`). So after an interruption, re-invoking conversion
re-processes all n files, not the remaining n−k. -/
theorem c1_amended_reprocesses_everything (conv : String → Except String String)
    (now : String) (docs : List DocInfo) (store : List (String × String)) :
    (convertAll conv now docs store).2.2
      = (docs.filter fun d => !d.is_duplicate).map (fun d => d.original_path)
    ∧ ∀ d ∈ docs, d.is_duplicate = true →
        { d with conversion_status := "skipped_duplicate" } ∈ (convertAll conv now docs store).1 := by
  refine ⟨convertAll_log conv now docs store, ?_⟩
  intro d hd hdup
  rw [convertAll_docs]
  exact List.mem_map.mpr ⟨d, hd, by rw [convertDoc_dup conv now d hdup]⟩

/-- Witness for C1 amended: one already-converted entry and one duplicate. -/
theorem c1_amended_reprocesses_everything_witness :
    ((mkDoc ⟨"docs/r2.pdf", 10, "h1"⟩ : DocInfo).is_duplicate = false)
    ∧ (convertAll (fun _ => Except.ok "body") "t1"
        [docAlreadyConverted, { mkDoc ⟨"docs/r2.pdf", 10, "h1"⟩ with
          is_duplicate := true, duplicate_of := "docs/r.pdf" }] []).2.2
      = ([docAlreadyConverted, { mkDoc ⟨"docs/r2.pdf", 10, "h1"⟩ with
          is_duplicate := true, duplicate_of := "docs/r.pdf" }].filter
            fun d => !d.is_duplicate).map (fun d => d.original_path)
    ∧ { { mkDoc ⟨"docs/r2.pdf", 10, "h1"⟩ with
          is_duplicate := true, duplicate_of := "docs/r.pdf" } with
          conversion_status := "skipped_duplicate" }
        ∈ (convertAll (fun _ => Except.ok "body") "t1"
            [docAlreadyConverted, { mkDoc ⟨"docs/r2.pdf", 10, "h1"⟩ with
              is_duplicate := true, duplicate_of := "docs/r.pdf" }] []).1 :=
  ⟨rfl,
    (c1_amended_reprocesses_everything _ "t1" _ []).1,
    (c1_amended_reprocesses_everything _ "t1" _ []).2 _ (by decide) rfl⟩

/-- C6: per-file errors are contained in each of the three generator/converter
loops. The conversion and summarization loops are pointwise: the whole run
equals the per-file transform mapped over the inputs (so a failure on one
file cannot change, or abort, the handling of any other), and a per-file
failure is recorded on that file as status `failed` with the captured message.
The classification loop likewise continues, recording a caught per-file
exception as an unclassified entry for that file. -/
theorem c6_single_file_errors_never_abort (conv : String → Except String String)
    (now model : String) (docs : List DocInfo) (store briefs : List (String × String))
    (gen : String → String → String → String → Except String String)
    (mdFiles : List (String × String))
    (cls : String → String → Except String Classification)
    (origMap : List (String × String)) (briefFiles : List (String × String)) :
    ((convertAll conv now docs store).1 = docs.map fun d => (convertDoc conv now d).1)
    ∧ (∀ (d : DocInfo) (e : String), d.is_duplicate = false →
        conv d.original_path = Except.error e →
        (convertDoc conv now d).1.conversion_status = "failed"
        ∧ (convertDoc conv now d).1.error_message = e)
    ∧ ((summarizeAll gen model mdFiles briefs).2
        = mdFiles.map fun pr => (summarizeOne gen model pr.1 pr.2).2)
    ∧ (∀ nm ct e : String, ¬ (pyStrip ct).length < 50 →
        gen ct (pyStemName nm) (rsplitExt (pyStemName nm)) model = Except.error e →
        (summarizeOne gen model nm ct).2.status = "failed"
        ∧ (summarizeOne gen model nm ct).2.error = e)
    ∧ (classifyAll cls origMap briefFiles
        = briefFiles.map fun pr => classifyOne cls origMap pr.1 pr.2)
    ∧ (∀ bn bc e : String, cls bc (docKeyOfBrief bn) = Except.error e →
        classifyOne cls origMap bn bc
          = { topic := "未分类", usage := "未分类", client := "未分类", suggested_name := ""
              filename := docKeyOfBrief bn
              original_path := (List.lookup (docKeyOfBrief bn) origMap).getD "" }) :=
  ⟨convertAll_docs conv now docs store,
    fun d e h1 h2 => convertDoc_err conv now d e h1 h2,
    summarizeAll_results gen model mdFiles briefs,
    fun nm ct e h1 h2 => summarizeOne_err gen model nm ct e h1 h2,
    classifyAll_eq_map cls origMap briefFiles,
    fun bn bc e h => classifyOne_err cls origMap bn bc e h⟩

/-- Witness for C6: concrete failing oracles on concrete single files. -/
theorem c6_single_file_errors_never_abort_witness :
    ((mkDoc ⟨"docs/x.pdf", 10, "hx"⟩ : DocInfo).is_duplicate = false)
    ∧ (convertDoc (fun _ => Except.error "boom") "t" (mkDoc ⟨"docs/x.pdf", 10, "hx"⟩)).1.conversion_status
        = "failed"
    ∧ ¬ (pyStrip (String.mk (List.replicate 60 'x'))).length < 50
    ∧ (summarizeOne (fun _ _ _ _ => Except.error "sum-err") "m" "x.pdf.md"
        (String.mk (List.replicate 60 'x'))).2.status = "failed"
    ∧ classifyOne (fun _ _ => Except.error "cls-err") [] "x.pdf.brief.md" "brief text"
        = { topic := "未分类", usage := "未分类", client := "未分类", suggested_name := ""
            filename := docKeyOfBrief "x.pdf.brief.md"
            original_path := (List.lookup (docKeyOfBrief "x.pdf.brief.md") []).getD "" } :=
  ⟨rfl,
    ((c6_single_file_errors_never_abort (fun _ => Except.error "boom") "t" "m" [] [] []
      (fun _ _ _ _ => Except.error "sum-err") [] (fun _ _ => Except.error "cls-err") [] []).2.1
      (mkDoc ⟨"docs/x.pdf", 10, "hx"⟩) "boom" rfl rfl).1,
    by decide,
    ((c6_single_file_errors_never_abort (fun _ => Except.error "boom") "t" "m" [] [] []
      (fun _ _ _ _ => Except.error "sum-err") [] (fun _ _ => Except.error "cls-err") [] []).2.2.2.1
      "x.pdf.md" (String.mk (List.replicate 60 'x')) "sum-err" (by decide) rfl).1,
    (c6_single_file_errors_never_abort (fun _ => Except.error "boom") "t" "m" [] [] []
      (fun _ _ _ _ => Except.error "sum-err") [] (fun _ _ => Except.error "cls-err") [] []).2.2.2.2.2
      "x.pdf.brief.md" "brief text" "cls-err" rfl⟩

/-! ### Helper lemmas: link materialization -/

theorem mem_addLink {r : Bool} {sch k : String} {tree : List LinkEntry} {item : ClsItem}
    {e : LinkEntry} (h : e ∈ addLink r sch k tree item) :
    e ∈ tree ∨ (item.original_path ≠ ""
      ∧ e = { scheme := sch, category := catOf item k, name := linkName r item
              target := item.original_path }) := by
  unfold addLink at h
  by_cases h0 : (item.original_path == "") = true
  · rw [if_pos h0] at h
    exact Or.inl h
  · rw [if_neg h0] at h
    by_cases h1 : linkExists tree sch (catOf item k) (linkName r item) = true
    · rw [if_pos h1] at h
      exact Or.inl h
    · rw [if_neg h1] at h
      rcases List.mem_append.mp h with h2 | h2
      · exact Or.inl h2
      · refine Or.inr ⟨?_, by simpa using h2⟩
        intro heq
        exact h0 (by rw [heq]; rfl)

theorem mem_items_foldl {r : Bool} {sch k : String} :
    ∀ (items : List ClsItem) (tree : List LinkEntry) (e : LinkEntry),
      e ∈ items.foldl (addLink r sch k) tree →
      e ∈ tree ∨ ∃ item ∈ items, item.original_path ≠ ""
        ∧ e = { scheme := sch, category := catOf item k, name := linkName r item
                target := item.original_path } := by
  intro items
  induction items with
  | nil => intro tree e h; exact Or.inl h
  | cons it its ih =>
    intro tree e h
    rcases ih (addLink r sch k tree it) e h with h1 | ⟨item, hm, hne, he⟩
    · rcases mem_addLink h1 with h2 | ⟨hne, he⟩
      · exact Or.inl h2
      · exact Or.inr ⟨it, List.mem_cons_self _ _, hne, he⟩
    · exact Or.inr ⟨item, List.mem_cons_of_mem _ hm, hne, he⟩

theorem mem_schemes_foldl {r : Bool} :
    ∀ (scs : List (String × String)) (tree : List LinkEntry) (items : List ClsItem)
      (e : LinkEntry),
      e ∈ scs.foldl (fun t sc => items.foldl (addLink r sc.1 sc.2) t) tree →
      e ∈ tree ∨ ∃ sc ∈ scs, ∃ item ∈ items, item.original_path ≠ ""
        ∧ e = { scheme := sc.1, category := catOf item sc.2, name := linkName r item
                target := item.original_path } := by
  intro scs
  induction scs with
  | nil => intro tree items e h; exact Or.inl h
  | cons sc scs ih =>
    intro tree items e h
    rcases ih _ items e h with h1 | ⟨sc', hm, item, hit, hne, he⟩
    · rcases mem_items_foldl items tree e h1 with h2 | ⟨item, hit, hne, he⟩
      · exact Or.inl h2
      · exact Or.inr ⟨sc, List.mem_cons_self _ _, item, hit, hne, he⟩
    · exact Or.inr ⟨sc', List.mem_cons_of_mem _ hm, item, hit, hne, he⟩

theorem mem_buildLinks {r : Bool} {tree₀ : List LinkEntry} {items : List ClsItem}
    {e : LinkEntry} (h : e ∈ buildLinks tree₀ r items) :
    e ∈ tree₀ ∨ ∃ sc ∈ schemeNames, ∃ item ∈ items, item.original_path ≠ ""
      ∧ e = { scheme := sc.1, category := catOf item sc.2, name := linkName r item
              target := item.original_path } :=
  mem_schemes_foldl schemeNames tree₀ items e h

theorem addLink_skips_existing (r : Bool) (sch k : String) (tree : List LinkEntry)
    (item : ClsItem) (h : linkExists tree sch (catOf item k) (linkName r item) = true) :
    addLink r sch k tree item = tree := by
  unfold addLink
  by_cases h0 : (item.original_path == "") = true
  · rw [if_pos h0]
  · rw [if_neg h0, if_pos h]

theorem classifyAll_item_orig (cls : String → String → Except String Classification)
    (om : List (String × String)) :
    ∀ (bfs : List (String × String)) (item : ClsItem), item ∈ classifyAll cls om bfs →
      item.original_path = (List.lookup item.filename om).getD "" := by
  intro bfs item h
  rw [classifyAll_eq_map] at h
  rcases List.mem_map.mp h with ⟨pr, _, rfl⟩
  rw [(classifyOne_fields cls om pr.1 pr.2).2, (classifyOne_fields cls om pr.1 pr.2).1]

/-- C7: re-running materialization on the same classifications is idempotent.
The prior `schemes/` tree is removed before building, so the result is a
function of the current classifications alone (any two prior trees give the
same rebuilt tree; re-running is a fixed point), every reference in the
rebuilt tree arises from a current classification entry (no stale reference
survives), and a link whose destination name already exists in the tree being
built is skipped, leaving the tree — and in particular the existing
target of the existing reference — unchanged, never overwritten. -/
theorem c7_rebuild_is_idempotent :
    (∀ (prior prior' : List LinkEntry) (r : Bool) (items : List ClsItem),
        organizeMaterialize prior r items = organizeMaterialize prior' r items)
    ∧ (∀ (prior : List LinkEntry) (r : Bool) (items : List ClsItem),
        organizeMaterialize (organizeMaterialize prior r items) r items
          = organizeMaterialize prior r items)
    ∧ (∀ (prior : List LinkEntry) (r : Bool) (items : List ClsItem) (e : LinkEntry),
        e ∈ organizeMaterialize prior r items →
        ∃ sc ∈ schemeNames, ∃ item ∈ items, item.original_path ≠ ""
          ∧ e = { scheme := sc.1, category := catOf item sc.2, name := linkName r item
                  target := item.original_path })
    ∧ (∀ (r : Bool) (sch k : String) (tree : List LinkEntry) (item : ClsItem),
        linkExists tree sch (catOf item k) (linkName r item) = true →
        addLink r sch k tree item = tree) := by
  refine ⟨fun _ _ _ _ => rfl, fun _ _ _ => rfl, ?_, addLink_skips_existing⟩
  intro prior r items e h
  have h' : e ∈ buildLinks [] r items := h
  rcases mem_buildLinks h' with h1 | h1
  · cases h1
  · exact h1

/-- Witness for C7: one classified item, the by-topic link it produces. -/
theorem c7_rebuild_is_idempotent_witness :
    ((⟨"by-topic", "主题A", "a.pdf", "docs/a.pdf"⟩ : LinkEntry)
        ∈ organizeMaterialize [] false
            [⟨"主题A", "用途B", "客户C", "", "a.pdf", "docs/a.pdf"⟩])
    ∧ ∃ sc ∈ schemeNames,
        ∃ item ∈ [(⟨"主题A", "用途B", "客户C", "", "a.pdf", "docs/a.pdf"⟩ : ClsItem)],
          item.original_path ≠ ""
          ∧ (⟨"by-topic", "主题A", "a.pdf", "docs/a.pdf"⟩ : LinkEntry)
              = { scheme := sc.1, category := catOf item sc.2, name := linkName false item
                  target := item.original_path } :=
  ⟨by decide, c7_rebuild_is_idempotent.2.2.1 [] false _ _ (by decide)⟩

/-- C2 counterexample: in the scenario of the spec (`a.pdf`, `b.pdf` byte-identical
to `a.pdf`, `c.pptx`), the scan does mark `b.pdf` as a duplicate of `a.pdf`
and `a.pdf` does get a classification, but the materialized tree contains no
reference whose target is the own path of `b.pdf`: duplicates are skipped at conversion, so
they never acquire a brief, never appear among the classifications, and are
never materialized. This falsifies "the topic-scheme tree contains references
to all three original paths". -/
theorem c2_counterexample :
    ((scanDocs scenarioFiles).map fun d => (d.original_path, d.is_duplicate, d.duplicate_of))
      = [("docs/c.pptx", false, ""), ("docs/a.pdf", false, ""),
          ("docs/b.pdf", true, "docs/a.pdf")]
    ∧ ((pipelineItems scenarioConv scenarioGen scenarioCls "M" "T" scenarioFiles).map
        fun i => (i.filename, i.original_path))
      = [("a.pdf", "docs/a.pdf"), ("c.pptx", "docs/c.pptx")]
    ∧ "docs/b.pdf"
        ∉ (pipelineRun scenarioConv scenarioGen scenarioCls "M" "T" false scenarioFiles).map
            LinkEntry.target :=
  ⟨by decide, by decide, by decide⟩

/-- C2 amended: only classified (hence canonical, converted) files are
materialized. In the scenario the tree references exactly `a.pdf` and
`c.pptx` (once per scheme each); `b.pdf` is absent. In general every
target of every reference is the `orig_map` resolution of some current
classification entry built from an existing brief — duplicates, having no
brief, contribute no reference of their own. -/
theorem c2_amended_only_classified_materialized :
    ((pipelineRun scenarioConv scenarioGen scenarioCls "M" "T" false scenarioFiles).map
        LinkEntry.target)
      = ["docs/a.pdf", "docs/c.pptx", "docs/a.pdf", "docs/c.pptx",
          "docs/a.pdf", "docs/c.pptx"]
    ∧ ∀ (conv : String → Except String String)
        (gen : String → String → String → String → Except String String)
        (cls : String → String → Except String Classification)
        (model now : String) (r : Bool) (files : List RawFile) (e : LinkEntry),
        e ∈ pipelineRun conv gen cls model now r files →
        ∃ item ∈ pipelineItems conv gen cls model now files,
          item.original_path ≠ "" ∧ e.target = item.original_path
          ∧ item.original_path
              = (List.lookup item.filename (buildOrigMap (scanDocs files))).getD "" := by
  refine ⟨by decide, ?_⟩
  intro conv gen cls model now r files e h
  have h' : e ∈ buildLinks [] r (pipelineItems conv gen cls model now files) := h
  rcases mem_buildLinks h' with h1 | ⟨sc, _, item, hit, hne, he⟩
  · cases h1
  · refine ⟨item, hit, hne, by rw [he], ?_⟩
    exact classifyAll_item_orig cls (buildOrigMap (scanDocs files)) _ item hit

/-- Witness for C2 amended: the first scenario link, resolved to `a.pdf`. -/
theorem c2_amended_only_classified_materialized_witness :
    ((⟨"by-topic", "方案", "a.pdf", "docs/a.pdf"⟩ : LinkEntry)
        ∈ pipelineRun scenarioConv scenarioGen scenarioCls "M" "T" false scenarioFiles)
    ∧ ∃ item ∈ pipelineItems scenarioConv scenarioGen scenarioCls "M" "T" scenarioFiles,
        item.original_path ≠ ""
        ∧ (⟨"by-topic", "方案", "a.pdf", "docs/a.pdf"⟩ : LinkEntry).target = item.original_path
        ∧ item.original_path
            = (List.lookup item.filename (buildOrigMap (scanDocs scenarioFiles))).getD "" :=
  ⟨by decide,
    c2_amended_only_classified_materialized.2 scenarioConv scenarioGen scenarioCls
      "M" "T" false scenarioFiles _ (by decide)⟩

/-- C10: the markdown artifact name is derived from the basename
stem and extension only — any two documents agreeing on basename and extension
share it, whatever their directories, sizes or hashes. Concretely, for
`dirA/report.pdf` and `dirB/report.pdf` (distinct contents, so not
duplicates): both scan as canonical; converting both leaves a single artifact
`report.pdf.md` holding the rendering of the later-converted file; summarization
produces the single brief `report.pdf.brief.md`; and classification yields a
single entry whose `orig_map` resolution is the path of the later file. -/
theorem c10_artifact_paths_basename_keyed :
    (∀ d₁ d₂ : DocInfo, basename d₁.original_path = basename d₂.original_path →
        d₁.file_type = d₂.file_type → mdFilename d₁ = mdFilename d₂)
    ∧ ((scanDocs collideFiles).map fun d => (d.original_path, d.md5, d.is_duplicate))
        = [("dirA/report.pdf", "h1", false), ("dirB/report.pdf", "h2", false)]
    ∧ pipelineStore collideConv "T" collideFiles
        = [("report.pdf.md",
            renderMd (mkDoc ⟨"dirB/report.pdf", 90, "h2"⟩) "dirB/report.pdf" "T")]
    ∧ (pipelineBriefs collideConv scenarioGen "M" "T" collideFiles).map Prod.fst
        = ["report.pdf.brief.md"]
    ∧ (pipelineItems collideConv scenarioGen scenarioCls "M" "T" collideFiles).map
        (fun i => (i.filename, i.original_path))
        = [("report.pdf", "dirB/report.pdf")] := by
  refine ⟨?_, by decide, by decide, by decide, by decide⟩
  intro d₁ d₂ h1 h2
  unfold mdFilename pyStem
  rw [h1, h2]

/-- Witness for C10 at the two colliding concrete files. -/
theorem c10_artifact_paths_basename_keyed_witness :
    (basename (mkDoc ⟨"dirA/report.pdf", 100, "h1"⟩ : DocInfo).original_path
      = basename (mkDoc ⟨"dirB/report.pdf", 90, "h2"⟩ : DocInfo).original_path)
    ∧ ((mkDoc ⟨"dirA/report.pdf", 100, "h1"⟩ : DocInfo).file_type
      = (mkDoc ⟨"dirB/report.pdf", 90, "h2"⟩ : DocInfo).file_type)
    ∧ mdFilename (mkDoc ⟨"dirA/report.pdf", 100, "h1"⟩)
      = mdFilename (mkDoc ⟨"dirB/report.pdf", 90, "h2"⟩) :=
  ⟨by decide, by decide,
    c10_artifact_paths_basename_keyed.1 _ _ (by decide) (by decide)⟩

/-- C8: for content strictly longer than `MAX_CONTENT_CHARS = 8000`, the
content slot of the generator prompt is exactly the 8000-character prefix
followed by the note stating the kept budget and the original character
length; content at or under the budget is passed unmodified; and the user
prompt embeds exactly this slot between the fixed template parts. -/
theorem c8_truncation_exact (content : String) :
    (content.length ≤ MAX_CONTENT_CHARS → truncatedForSummary content = content)
    ∧ (content.length > MAX_CONTENT_CHARS →
        truncatedForSummary content
          = (⟨content.toList.take MAX_CONTENT_CHARS⟩ : String)
              ++ ("\n\n... (内容已截取前 8000 字符，原文共 "
                  ++ toString content.length ++ " 字符)")
        ∧ ((⟨content.toList.take MAX_CONTENT_CHARS⟩ : String)).length = MAX_CONTENT_CHARS)
    ∧ (∀ fn ft : String, summaryUserPrompt fn ft content
        = summaryPromptHead fn ft ++ truncatedForSummary content ++ summaryPromptTail) := by
  refine ⟨?_, ?_, fun _ _ => rfl⟩
  · intro h
    simp only [truncatedForSummary]
    rw [if_neg (not_lt.mpr h)]
    have ht : content.toList.take MAX_CONTENT_CHARS = content.toList :=
      List.take_of_length_le h
    rw [ht]
    rfl
  · intro h
    constructor
    · simp only [truncatedForSummary, truncNote]
      rw [if_pos h]
      congr 2
    · show (content.toList.take MAX_CONTENT_CHARS).length = MAX_CONTENT_CHARS
      rw [List.length_take]
      exact Nat.min_eq_left (le_of_lt h)

/-- Witness for C8: an 8001-character content (over budget) and a short one. -/
theorem c8_truncation_exact_witness :
    ((String.mk (List.replicate 8001 'x')).length > MAX_CONTENT_CHARS)
    ∧ truncatedForSummary (String.mk (List.replicate 8001 'x'))
        = (⟨(String.mk (List.replicate 8001 'x')).toList.take MAX_CONTENT_CHARS⟩ : String)
            ++ ("\n\n... (内容已截取前 8000 字符，原文共 "
                ++ toString (String.mk (List.replicate 8001 'x')).length ++ " 字符)")
    ∧ ("abc".length ≤ MAX_CONTENT_CHARS)
    ∧ truncatedForSummary "abc" = "abc" :=
  ⟨by show (8000 : Nat) < (List.replicate 8001 'x').length; rw [List.length_replicate]; omega,
    ((c8_truncation_exact (String.mk (List.replicate 8001 'x'))).2.1
      (by show (8000 : Nat) < (List.replicate 8001 'x').length; rw [List.length_replicate]; omega)).1,
    by decide,
    (c8_truncation_exact "abc").1 (by decide)⟩

/-- C4 counterexample: with a reachable generator, `--summarize` (and
likewise `--organize`) executes without `--confirm` — only `--convert` is
guarded by the confirmation flag. This falsifies "every CLI stage that
mutates the filesystem or invokes the generator refuses to run unless
--confirm is supplied". -/
theorem c4_counterexample :
    ((⟨false, false, true, false, false, "qwen2.5:3b", false, false⟩ : Args).confirm = false)
    ∧ mainDispatch ⟨false, false, true, false, false, "qwen2.5:3b", false, false⟩ true
        (TagsResult.httpStatus 200 ["qwen2.5:3b"]) = [Event.summarizeRun]
    ∧ mainDispatch ⟨false, false, false, true, false, "qwen2.5:3b", false, false⟩ true
        (TagsResult.httpStatus 200 ["qwen2.5:3b"]) = [Event.organizeRun] :=
  ⟨rfl, by decide, by decide⟩

/-- C4 amended: only the convert stage requires `--confirm`; a convert request
without it is refused before anything runs (which, since `main` returns, also
prevents later stages in the same invocation), while summarize and organize
run without the confirmation flag whenever the generator check passes. -/
theorem c4_amended_confirm_guards_convert_only :
    (∀ (args : Args) (mdOk : Bool) (resp : TagsResult),
        args.preview = false → args.convert = true → args.confirm = false →
        mainDispatch args mdOk resp = [Event.confirmRefused])
    ∧ (∀ cf : Bool,
        mainDispatch ⟨false, false, true, false, false, "qwen2.5:3b", cf, false⟩ true
          (TagsResult.httpStatus 200 ["qwen2.5:3b"]) = [Event.summarizeRun])
    ∧ (∀ cf : Bool,
        mainDispatch ⟨false, false, false, true, false, "qwen2.5:3b", cf, false⟩ true
          (TagsResult.httpStatus 200 ["qwen2.5:3b"]) = [Event.organizeRun]) := by
  refine ⟨?_, ?_, ?_⟩
  · intro args mdOk resp h1 h2 h3
    simp [mainDispatch, h1, h2, h3]
  · intro cf
    cases cf <;> decide
  · intro cf
    cases cf <;> decide

/-- Witness for C4 amended: a concrete unconfirmed convert request. -/
theorem c4_amended_confirm_guards_convert_only_witness :
    ((⟨false, true, false, false, false, "m", false, false⟩ : Args).preview = false)
    ∧ ((⟨false, true, false, false, false, "m", false, false⟩ : Args).convert = true)
    ∧ ((⟨false, true, false, false, false, "m", false, false⟩ : Args).confirm = false)
    ∧ mainDispatch ⟨false, true, false, false, false, "m", false, false⟩ true
        TagsResult.connectionError = [Event.confirmRefused] :=
  ⟨rfl, rfl, rfl,
    c4_amended_confirm_guards_convert_only.1 _ true TagsResult.connectionError rfl rfl rfl⟩

/-- C9 counterexample: in a combined `--convert --summarize --confirm`
invocation with the generator unreachable, the conversion stage executes and
only then does the availability check fail and exit — so the run does not
abort "before any stage executes". -/
theorem c9_counterexample :
    mainDispatch ⟨false, true, true, false, false, "qwen2.5:3b", true, false⟩ true
        TagsResult.connectionError
      = [Event.convertRun, Event.ollamaError, Event.exitErr] := by
  decide

/-- C9 amended: whenever `check_ollama` fails for the requested model, no
summarize or organize stage work happens in the run (neither event occurs in
the trace), and any invocation that requested summarize or organize — and is
not already stopped by the preview/confirm/markitdown guards — prints the
error message of the check and exits with a non-zero code before the
generator-using stage starts; stages earlier in the same invocation
(conversion) may however already have executed. -/
theorem c9_amended_abort_before_generator_stage :
    (∀ (args : Args) (mdOk : Bool) (resp : TagsResult),
        (check_ollama resp args.model).1 = false →
        Event.summarizeRun ∉ mainDispatch args mdOk resp
        ∧ Event.organizeRun ∉ mainDispatch args mdOk resp)
    ∧ (∀ (args : Args) (mdOk : Bool) (resp : TagsResult),
        (check_ollama resp args.model).1 = false →
        args.preview = false → (args.summarize = true ∨ args.organize = true) →
        (args.convert = true → args.confirm = true ∧ mdOk = true) →
        Event.ollamaError ∈ mainDispatch args mdOk resp
        ∧ Event.exitErr ∈ mainDispatch args mdOk resp) := by
  constructor
  · rintro ⟨p, c, sz, o, r, m, cf, j⟩ mdOk resp hol
    cases p <;> cases c <;> cases sz <;> cases o <;> cases cf <;> cases mdOk <;>
      simp_all [mainDispatch]
  · rintro ⟨p, c, sz, o, r, m, cf, j⟩ mdOk resp hol h1 h2 h3
    cases p <;> cases c <;> cases sz <;> cases o <;> cases cf <;> cases mdOk <;>
      simp_all [mainDispatch]

/-- Witness for C9 amended: summarize-only invocation, generator down. -/
theorem c9_amended_abort_before_generator_stage_witness :
    ((check_ollama TagsResult.connectionError
        (⟨false, false, true, false, false, "m", false, false⟩ : Args).model).1 = false)
    ∧ Event.ollamaError ∈ mainDispatch ⟨false, false, true, false, false, "m", false, false⟩
        true TagsResult.connectionError
    ∧ Event.exitErr ∈ mainDispatch ⟨false, false, true, false, false, "m", false, false⟩
        true TagsResult.connectionError :=
  ⟨rfl,
    c9_amended_abort_before_generator_stage.2 _ true TagsResult.connectionError rfl rfl
      (Or.inl rfl) (fun h => absurd h (by decide))⟩

end DocConv
